import Mathlib

set_option maxRecDepth 8000

/-!
Shallow embedding of the WAD binary decoder of `src/types/index.ts`
(DOOM map viewer). Buffers are lists of byte cells, each cell meaningful
modulo 256; JS numbers holding positions, sizes and decoded integers are
modelled as `Int`. Lump names are lists of character codes; the decoder
only ever produces 7-bit codes (Node's `'ascii'` decoding masks the high
bit), so the JS string operations are modelled on that range.
-/

/-- Character codes of a Lean string literal, for ASCII name constants. -/
def strBytes (s : String) : List Nat :=
  s.toList.map Char.toNat

/-- Node `buffer.toString('ascii')` keeps only the low 7 bits of every byte. -/
def asciiDecode (l : List Nat) : List Nat :=
  l.map (fun c => c % 128)

/-- The `while (lumpName.endsWith('\0')) ...` loop of `Lump.fromBufferStream`:
remove every trailing NUL character. -/
def stripTrailingNuls (l : List Nat) : List Nat :=
  (l.reverse.dropWhile (fun c => c == 0)).reverse

/-- JS `String.prototype.toUpperCase` on the ASCII range (the only range the
decoder produces for lump names). -/
def jsToUpper (c : Nat) : Nat :=
  if 97 ≤ c ∧ c ≤ 122 then c - 32 else c

/-- ASCII whitespace removed by JS `String.prototype.trim`. -/
def isWhitespaceChar (c : Nat) : Bool :=
  c == 9 || c == 10 || c == 11 || c == 12 || c == 13 || c == 32

/-- JS `String.prototype.trim` on ASCII strings. -/
def jsTrim (l : List Nat) : List Nat :=
  ((l.dropWhile isWhitespaceChar).reverse.dropWhile isWhitespaceChar).reverse

/-- `name.toUpperCase().trim()`, the normalization applied to lump names before
the terminator tests and the VERTEXES/LINEDEFS/THINGS lookups. -/
def normalizeLumpName (l : List Nat) : List Nat :=
  jsTrim (l.map jsToUpper)

/-- `buffer.readInt16LE()`: little-endian signed 16-bit value of the first two
cells (two's complement). -/
def readInt16LEof (l : List Nat) : Int :=
  let v := l.getD 0 0 % 256 + l.getD 1 0 % 256 * 256
  if v < 32768 then (v : Int) else (v : Int) - 65536

/-- `buffer.readInt32LE()`: little-endian signed 32-bit value of the first four
cells (two's complement). -/
def readInt32LEof (l : List Nat) : Int :=
  let v := l.getD 0 0 % 256 + l.getD 1 0 % 256 * 256 + l.getD 2 0 % 256 * 65536 +
    l.getD 3 0 % 256 * 16777216
  if v < 2147483648 then (v : Int) else (v : Int) - 4294967296

/-- JS bitwise `&` on numbers: both operands pass through ToInt32 (reduction
modulo 2^32), the 32 result bits are reinterpreted as a signed value. -/
def jsAnd (a b : Int) : Int :=
  let r := Nat.land (a % 4294967296).toNat (b % 4294967296).toNat
  if r < 2147483648 then (r : Int) else (r : Int) - 4294967296

/-- `BufferStream` of `src/types/index.ts`: an immutable buffer plus a mutable
read position. The position setter clamps only from above (`Math.min`). -/
structure BufferStream where
  buffer : List Nat
  position : Int
deriving DecidableEq

/-- `new BufferStream(buf)` starts at position 0. -/
def BufferStream.new (buf : List Nat) : BufferStream := ⟨buf, 0⟩

/-- The `position` setter: `Math.min(value, this._buffer.length)`. -/
def BufferStream.seek (bs : BufferStream) (value : Int) : BufferStream :=
  { bs with position := min value (bs.buffer.length : Int) }

/-- Index clamping of `TypedArray.prototype.subarray` (Node buffers follow it):
a negative index counts from the end, everything is clamped to the buffer. -/
def subarrayIndex (len : Nat) (i : Int) : Nat :=
  if i < 0 then ((len : Int) + i).toNat else min i.toNat len

/-- `buffer.subarray(start, end)`. -/
def listSubarray (buf : List Nat) (start stop : Int) : List Nat :=
  (buf.take (subarrayIndex buf.length stop)).drop (subarrayIndex buf.length start)

/-- `read(count)`: the subarray at the current position; the position advances
(through the setter) by the number of cells actually obtained. -/
def BufferStream.read (bs : BufferStream) (count : Nat) : List Nat × BufferStream :=
  let data := listSubarray bs.buffer bs.position (bs.position + count)
  (data, bs.seek (bs.position + data.length))

/-- `Vertex` record: a 2D point with signed 16-bit coordinates. -/
structure Vertex where
  x : Int
  y : Int
deriving DecidableEq

/-- `Vertex.fromBufferStream`: two little-endian int16 reads (x then y),
`none` on a short read. -/
def Vertex.fromBufferStream (stream : BufferStream) : Option Vertex × BufferStream :=
  let (t1, s1) := stream.read 2
  if t1.length ≠ 2 then (none, s1) else
  let x := readInt16LEof t1
  let (t2, s2) := s1.read 2
  if t2.length ≠ 2 then (none, s2) else
  (some ⟨x, readInt16LEof t2⟩, s2)

/-- `LineDefs` record: only the two resolved vertices are retained. -/
structure LineDefs where
  start : Vertex
  end_ : Vertex
deriving DecidableEq

/-- JS `array[i]` on a vertex table: `undefined` (here `none`) outside
`[0, length)`; a negative decoded index is out of range. -/
def jsIndex (l : List Vertex) (i : Int) : Option Vertex :=
  if i < 0 then none else l[i.toNat]?

/-- `LineDefs.fromBufferStream`: seven little-endian int16 reads in source
order (start index, end index, flags, special type, sector tag, right sidedef,
left sidedef), then the two vertex-table lookups; `null` on any short read or
unresolved vertex. Flags, special type, sector tag and the sidedef indices are
consumed but not stored. -/
def LineDefs.fromBufferStream (stream : BufferStream) (vertexes : List Vertex) :
    Option LineDefs × BufferStream :=
  let (t1, s1) := stream.read 2
  if t1.length ≠ 2 then (none, s1) else
  let startVertexIndex := readInt16LEof t1
  let (t2, s2) := s1.read 2
  if t2.length ≠ 2 then (none, s2) else
  let endVertexIndex := readInt16LEof t2
  let (t3, s3) := s2.read 2
  if t3.length ≠ 2 then (none, s3) else
  let (t4, s4) := s3.read 2
  if t4.length ≠ 2 then (none, s4) else
  let (t5, s5) := s4.read 2
  if t5.length ≠ 2 then (none, s5) else
  let (t6, s6) := s5.read 2
  if t6.length ≠ 2 then (none, s6) else
  let (t7, s7) := s6.read 2
  if t7.length ≠ 2 then (none, s7) else
  match jsIndex vertexes startVertexIndex with
  | none => (none, s7)
  | some startVertex =>
    match jsIndex vertexes endVertexIndex with
    | none => (none, s7)
    | some endVertex => (some ⟨startVertex, endVertex⟩, s7)

/-- `Lump` descriptor: name (character codes), position and size in the file. -/
structure Lump where
  name : List Nat
  position : Int
  size : Int
deriving DecidableEq

/-- `Lump.fromBufferStream`: int32 position, int32 size, 8 name bytes decoded
as ASCII with trailing NULs stripped; `null` on any short read. -/
def Lump.fromBufferStream (stream : BufferStream) : Option Lump × BufferStream :=
  let (t1, s1) := stream.read 4
  if t1.length ≠ 4 then (none, s1) else
  let lumpPos := readInt32LEof t1
  let (t2, s2) := s1.read 4
  if t2.length ≠ 4 then (none, s2) else
  let lumpSize := readInt32LEof t2
  let (t3, s3) := s2.read 8
  if t3.length ≠ 8 then (none, s3) else
  (some ⟨stripTrailingNuls (asciiDecode t3), lumpPos, lumpSize⟩, s3)

/-- `Thing` record: five decoded fields, all via `readInt16LE`. -/
structure Thing where
  x : Int
  y : Int
  angle : Int
  type : Int
  flags : Int
deriving DecidableEq

/-- `Thing.fromBufferStream`: five little-endian int16 reads in source order
(x, y, angle, type, flags); `null` on any short read. -/
def Thing.fromBufferStream (stream : BufferStream) : Option Thing × BufferStream :=
  let (t1, s1) := stream.read 2
  if t1.length ≠ 2 then (none, s1) else
  let x := readInt16LEof t1
  let (t2, s2) := s1.read 2
  if t2.length ≠ 2 then (none, s2) else
  let y := readInt16LEof t2
  let (t3, s3) := s2.read 2
  if t3.length ≠ 2 then (none, s3) else
  let angle := readInt16LEof t3
  let (t4, s4) := s3.read 2
  if t4.length ≠ 2 then (none, s4) else
  let type := readInt16LEof t4
  let (t5, s5) := s4.read 2
  if t5.length ≠ 2 then (none, s5) else
  (some ⟨x, y, angle, type, readInt16LEof t5⟩, s5)

/-- The `DOOMThingFlags` enum as a (name, bit value) table, in declaration
order. -/
def DOOMThingFlagsTable : List (String × Int) :=
  [("Skill_1_and_2", 0x0001),
   ("Skill_3", 0x0002),
   ("Skill_4_and_5", 0x0004),
   ("Deaf", 0x0008),
   ("NotInSinglePlayer", 0x0010),
   ("NotInDeathmatch", 0x0020),
   ("NotInCoop", 0x0040),
   ("FriendlyMonster", 0x0080)]

/-- The `DOOMThingType` enum as a (name, value) table, in declaration order. -/
def DOOMThingTypeTable : List (String × Int) :=
  [("UNKNOWN", 0x0000),
   ("AmmoClip", 0x07D7),
   ("BoxOfAmmo", 0x0800),
   ("BoxOfRockets", 0x07FE),
   ("BoxOfShells", 0x0801),
   ("CellCharge", 0x07FF),
   ("CellChargePack", 0x0011),
   ("Rocket", 0x07DA),
   ("ShotgunShells", 0x07D8),
   ("Berserk", 0x07E7),
   ("ComputerMap", 0x07EA),
   ("HealthPoition", 0x07DE),
   ("Invisibility", 0x07E8),
   ("Invulnerability", 0x07E6),
   ("LightAmplicationVisor", 0x07FD),
   ("Megasphere", 0x0053),
   ("SoulSphere", 0x07DD),
   ("SpiritualArmor", 0x07DF),
   ("BloodyMess1", 0x000A),
   ("BloodyMess2", 0x000C),
   ("Candle", 0x0022),
   ("DeadCacodemon", 0x0016),
   ("DeadDemon", 0x0015),
   ("DeadFormerHuman", 0x0012),
   ("DeadFormerSergeant", 0x0013),
   ("DeadImp", 0x0014),
   ("DeadPlayer", 0x000F),
   ("HangingLeg1", 0x003E),
   ("HangingPairOfLegs1", 0x003C),
   ("HangingVictimArmsOut1", 0x003B),
   ("HangingVictimOneLegged1", 0x003D),
   ("HangingVictimTwitching1", 0x003F),
   ("InvisibleDeadLostSoul", 0x0017),
   ("PoolOfBlood1", 0x004F),
   ("PoolOfBlood2", 0x0050),
   ("PoolOfBloodAndFlesh", 0x0018),
   ("PoolOfBrains", 0x0051),
   ("BlueKeycard", 0x0005),
   ("BlueSkullKey", 0x0028),
   ("RedKeycard", 0x000D),
   ("RedSkullKey", 0x0026),
   ("YellowKeycard", 0x0006),
   ("YellowSkullKey", 0x0027),
   ("Arachnotron", 0x0044),
   ("ArchVile", 0x0040),
   ("BaronOfHell", 0x0BBB),
   ("Cacodemon", 0x0BBD),
   ("Chaingunner", 0x0041),
   ("CommanderKeen", 0x0048),
   ("Cyberdemon", 0x0010),
   ("Demon", 0x0BBA),
   ("FormerHumanTrooper", 0x0BBC),
   ("FormerHumanSergeant", 0x0009),
   ("HellKnight", 0x0045),
   ("Imp", 0x0BB9),
   ("LostSoul", 0x0BBE),
   ("Mancubus", 0x0043),
   ("PainElemental", 0x0047),
   ("Revenant", 0x0042),
   ("Spectre", 0x003A),
   ("SpiderMastermind", 0x0007),
   ("WolfensteinSoldier", 0x0054),
   ("Barrel", 0x07F3),
   ("BurningBarrel", 0x0046),
   ("BurntTree", 0x002B),
   ("Candelabra", 0x0023),
   ("EvilEye", 0x0029),
   ("FiveSkullsShishKebab", 0x001C),
   ("FloatingSkull", 0x002A),
   ("FloorLamp", 0x07EC),
   ("HangingLeg2", 0x0035),
   ("HangingPairOfLegs2", 0x0034),
   ("HangingTorsoBrainRemoved", 0x004E),
   ("HangingTorsoLookingDown", 0x004B),
   ("HangingTorsoLookingUp", 0x004D),
   ("HangingTorsoOpenSkull", 0x004C),
   ("HangingVictimArmsOut", 0x0032),
   ("HangingVictimGutsAndBrainRemoved", 0x004A),
   ("HangingVictimGutsRemoved", 0x0049),
   ("HangingVictimOneLegged2", 0x0033),
   ("HangingVictimTwitching2", 0x0031),
   ("ImpaledHuman", 0x0019),
   ("LargeBrownTree", 0x0036),
   ("PileOfSkullsAndCandles", 0x001D),
   ("ShortBlueFirestick", 0x0037),
   ("ShortGreenFirestick", 0x0038),
   ("ShortGreenPillar", 0x001F),
   ("ShortGreenPillarWithBeatingHeart", 0x0024),
   ("ShortRedFirestick", 0x0039),
   ("ShortRedPillar", 0x0021),
   ("ShortRedPillarWithSkull", 0x0025),
   ("ShortTechnoFloorLamp", 0x0056),
   ("SkullOnAPole", 0x001B),
   ("Stalagmite", 0x002F),
   ("TallBlueFirestick", 0x002C),
   ("TallGreenFirestick", 0x002D),
   ("TallGreenPillar", 0x001E),
   ("TallRedFirestick", 0x002E),
   ("TallRedPillar", 0x0020),
   ("TallTechnoFloorLamp", 0x0055),
   ("TallTechnoPillar", 0x0030),
   ("TwitchingImpaledHuman", 0x001A),
   ("BossBrain", 0x0058),
   ("DeathmatchStart", 0x000B),
   ("Player1Start", 0x001),
   ("Player2Start", 0x002),
   ("Player3Start", 0x003),
   ("Player4Start", 0x004),
   ("SpawnShooter", 0x0059),
   ("SpawnSpot", 0x0057),
   ("TeleportLanding", 0x000E),
   ("Backpack", 0x0008),
   ("BlueArmor", 0x07E3),
   ("GreenArmor", 0x07E2),
   ("Medikit", 0x07DC),
   ("RadiationSuit", 0x07E9),
   ("Stimpack", 0x07DB),
   ("BFG9000", 0x07D6),
   ("Chaingun", 0x07D2),
   ("Chainsaw", 0x07D5),
   ("PlasmaRifle", 0x07D4),
   ("RocketLauncher", 0x07D3),
   ("Shotgun", 0x07D1),
   ("SuperShotgun", 0x0052)]

/-- TypeScript reverse mapping `Enum[v]` of a numeric enum: the name of the
last declared member carrying value `v` (later declarations overwrite earlier
reverse entries), `none` when no member has that value. -/
def enumReverseName (table : List (String × Int)) (v : Int) : Option String :=
  ((table.filter (fun e => e.2 == v)).getLast?).map (fun e => e.1)

/-- `Thing.doomFlags`: `Object.values(DOOMThingFlags)` filtered by
`(this.flags & value) !== 0`. `Object.values` of a numeric enum also holds the
reverse-mapping member names (strings); under the JS `&` they coerce to NaN,
hence to 0, and never pass the filter, so only the numeric portion (the bit
values in declaration order) is observable. -/
def Thing.doomFlags (t : Thing) : List Int :=
  (DOOMThingFlagsTable.map (fun e => e.2)).filter (fun value => jsAnd t.flags value != 0)

/-- `Thing.doomFlagNames`: each kept bit value mapped through the enum reverse
mapping (`DOOMThingFlags[flag]`, `none` standing for JS `undefined`). -/
def Thing.doomFlagNames (t : Thing) : List (Option String) :=
  t.doomFlags.map (fun flag => enumReverseName DOOMThingFlagsTable flag)

/-- `Thing.doomType`: `Object.values(DOOMThingType).find(v => v === this.type)
?? null`. The reverse-mapping names (strings) are never strictly equal to a
number, so the search is over the numeric values in declaration order. -/
def Thing.doomType (t : Thing) : Option Int :=
  (DOOMThingTypeTable.map (fun e => e.2)).find? (fun value => value == t.type)

/-- `Thing.doomTypeName`: `if (!doomType) return null` — the guard is falsy
both for `null` and for the value 0 — then `DOOMThingType[doomType]`. -/
def Thing.doomTypeName (t : Thing) : Option String :=
  match t.doomType with
  | none => none
  | some v => if v = 0 then none else enumReverseName DOOMThingTypeTable v

/-- `WADFormat` enum. -/
inductive WADFormat
  | Default
  | Hexen
  | Strife
deriving DecidableEq

/-- `WADType` enum. -/
inductive WADType
  | IWAD
  | PWAD
deriving DecidableEq

/-- A `WADFileBase` instance: format tag, IWAD/PWAD kind, owned buffer. -/
structure WADFile where
  format : WADFormat
  type : WADType
  data : List Nat
deriving DecidableEq

/-- The decode error thrown by `WADFileBase.fromBuffer`
(`TypeError('invalid WAD file format')`). -/
inductive WADDecodeError
  | InvalidFormat
deriving DecidableEq

/-- `WADFileBase.fromBuffer`: identify the archive by the ASCII decoding of the
first four bytes; `"IWAD"`/`"PWAD"` pick the subclass, anything else throws. -/
def WADFileBase.fromBuffer (data : List Nat) (format : WADFormat) :
    Except WADDecodeError WADFile :=
  let header := asciiDecode (listSubarray data 0 4)
  if header = strBytes "IWAD" then .ok ⟨format, .IWAD, data⟩
  else if header = strBytes "PWAD" then .ok ⟨format, .PWAD, data⟩
  else .error .InvalidFormat

/-- The `for (let i = 0; i < lumpCount; i++)` body of `enumerateLumps`:
decode directory entries, stopping at the first failed decode. -/
def enumerateLumpsLoop : Nat → BufferStream → List Lump
  | 0, _ => []
  | n + 1, stream =>
    match Lump.fromBufferStream stream with
    | (none, _) => []
    | (some newLump, s1) => newLump :: enumerateLumpsLoop n s1

/-- `WADFileBase.enumerateLumps`: skip the 4-byte file id, read the int32 lump
count and int32 directory offset, seek there and decode `lumpCount` entries
(none when the count is negative: `Int.toNat`). -/
def enumerateLumps (data : List Nat) : List Lump :=
  let stream := (BufferStream.new data).seek 4
  let (t1, s1) := stream.read 4
  if t1.length ≠ 4 then [] else
  let lumpCount := readInt32LEof t1
  let (t2, s2) := s1.read 4
  if t2.length ≠ 4 then [] else
  let lumpDirOffset := readInt32LEof t2
  enumerateLumpsLoop lumpCount.toNat (s2.seek lumpDirOffset)

/-- Decimal digit characters of `n`, fuel-recursive so that it reduces in the
kernel; mirrors JS `Number.prototype.toString` on a natural number. -/
def digitCharsAux : Nat → Nat → List Nat
  | 0, _ => []
  | _ + 1, 0 => []
  | fuel + 1, n + 1 => digitCharsAux fuel ((n + 1) / 10) ++ [(n + 1) % 10 + 48]

/-- Decimal digit characters of a natural number (`(0).toString()` is `"0"`). -/
def digitChars (n : Nat) : List Nat :=
  if n = 0 then [48] else digitCharsAux n n

/-- The template `` `E${episodeNr}M${mapNr}` `` (codes of `E` and `M` are 69
and 77). -/
def doom1MapMarkerName (episodeNr mapNr : Nat) : List Nat :=
  69 :: digitChars episodeNr ++ 77 :: digitChars mapNr

/-- `String.prototype.padStart(2, '0')` (code of `0` is 48). -/
def padStartTwoZeros (l : List Nat) : List Nat :=
  List.replicate (2 - l.length) 48 ++ l

/-- The template `` `MAP${mapNr.toString().padStart(2, '0')}` `` (codes of
`M`, `A`, `P` are 77, 65, 80). -/
def doom2MapMarkerName (mapNr : Nat) : List Nat :=
  77 :: 65 :: 80 :: padStartTwoZeros (digitChars mapNr)

/-- The Doom 1 group terminator: `/^(E)([0-9])/.test(name.toUpperCase().trim())`. -/
def isDoom1MapTerminator (name : List Nat) : Bool :=
  match normalizeLumpName name with
  | c1 :: c2 :: _ => c1 == 69 && decide (48 ≤ c2) && decide (c2 ≤ 57)
  | _ => false

/-- The Doom 2 group terminator: `name.toUpperCase().trim().startsWith('MAP')`. -/
def isDoom2MapTerminator (name : List Nat) : Bool :=
  (normalizeLumpName name).take 3 == strBytes "MAP"

/-- JS `Array.prototype.findIndex` (the source's `-1` sentinel is `none`). -/
def findIndexOf (p : Lump → Bool) : List Lump → Option Nat
  | [] => none
  | l :: rest => if p l then some 0 else (findIndexOf p rest).map (fun i => i + 1)

/-- The `while (mapLumpIndex + offset < allLumps.length)` loop shared by both
map-lump groupers: increment `offset`, fetch `allLumps[mapLumpIndex + offset]`,
stop on the terminator or past the end, otherwise yield. The loop runs at most
`allLumps.length` times, so that much fuel makes the recursion total. -/
def mapLumpsLoop (isTerm : List Nat → Bool) (allLumps : List Lump) (mapLumpIndex : Nat) :
    Nat → Nat → List Lump
  | _, 0 => []
  | offset, fuel + 1 =>
    if mapLumpIndex + offset < allLumps.length then
      match allLumps[mapLumpIndex + offset + 1]? with
      | none => []
      | some lumpOfMap =>
        if isTerm lumpOfMap.name then []
        else lumpOfMap :: mapLumpsLoop isTerm allLumps mapLumpIndex (offset + 1) fuel
    else []

/-- `WADFileBase._enumerateDoom1MapLumps` over an already enumerated
directory: find the `E{e}M{m}` marker by exact name equality, then collect the
following lumps up to the first terminator. -/
def enumerateDoom1MapLumps (allLumps : List Lump) (episodeNr mapNr : Nat) : List Lump :=
  match findIndexOf (fun lump => lump.name == doom1MapMarkerName episodeNr mapNr) allLumps with
  | none => []
  | some mapLumpIndex => mapLumpsLoop isDoom1MapTerminator allLumps mapLumpIndex 0 allLumps.length

/-- `WADFileBase._enumerateDoom2MapLumps`: same with the `MAP{nn}` marker and
the `MAP` prefix terminator. -/
def enumerateDoom2MapLumps (allLumps : List Lump) (mapNr : Nat) : List Lump :=
  match findIndexOf (fun lump => lump.name == doom2MapMarkerName mapNr) allLumps with
  | none => []
  | some mapLumpIndex => mapLumpsLoop isDoom2MapTerminator allLumps mapLumpIndex 0 allLumps.length

/-- The VERTEXES decode loop of `_enumerateLineDefsOfMap`, fueled: every
successful vertex decode advances the position by exactly 4, so
`(stopAt - position).toNat + 1` iterations of fuel are never exhausted. -/
def decodeVertexesLoop : Nat → BufferStream → Int → List Vertex × BufferStream
  | 0, stream, _ => ([], stream)
  | fuel + 1, stream, stopAt =>
    if stream.position < stopAt then
      match Vertex.fromBufferStream stream with
      | (some newVertex, s1) =>
        let (rest, s2) := decodeVertexesLoop fuel s1 stopAt
        (newVertex :: rest, s2)
      | (none, s1) => ([], s1)
    else ([], stream)

/-- The LINEDEFS decode loop of `_enumerateLineDefsOfMap` (a successful decode
advances the position by exactly 14). -/
def decodeLineDefsLoop (vertexesOfMap : List Vertex) : Nat → BufferStream → Int → List LineDefs
  | 0, _, _ => []
  | fuel + 1, stream, stopAt =>
    if stream.position < stopAt then
      match LineDefs.fromBufferStream stream vertexesOfMap with
      | (some newLineDef, s1) => newLineDef :: decodeLineDefsLoop vertexesOfMap fuel s1 stopAt
      | (none, _) => []
    else []

/-- `WADFileBase._enumerateLineDefsOfMap`: locate the VERTEXES lump by
normalized name, decode its vertex table, locate the LINEDEFS lump, decode the
line definitions against that table; an absent lump yields the empty list. -/
def enumerateLineDefsOfMap (stream : BufferStream) (allLumpsOfMap : List Lump) : List LineDefs :=
  match allLumpsOfMap.find? (fun lump => normalizeLumpName lump.name == strBytes "VERTEXES") with
  | none => []
  | some vertexesLumpOfMap =>
    let s1 := stream.seek vertexesLumpOfMap.position
    let stopAt := vertexesLumpOfMap.position + vertexesLumpOfMap.size
    let (vertexesOfMap, s2) := decodeVertexesLoop ((stopAt - s1.position).toNat + 1) s1 stopAt
    match allLumpsOfMap.find? (fun lump => normalizeLumpName lump.name == strBytes "LINEDEFS") with
    | none => []
    | some lindefsLump =>
      let s3 := s2.seek lindefsLump.position
      let stopAt2 := lindefsLump.position + lindefsLump.size
      decodeLineDefsLoop vertexesOfMap ((stopAt2 - s3.position).toNat + 1) s3 stopAt2

/-- The THINGS decode loop of `_enumerateThingsOfMap` (a successful decode
advances the position by exactly 10). -/
def decodeThingsLoop : Nat → BufferStream → Int → List Thing
  | 0, _, _ => []
  | fuel + 1, stream, stopAt =>
    if stream.position < stopAt then
      match Thing.fromBufferStream stream with
      | (some newThing, s1) => newThing :: decodeThingsLoop fuel s1 stopAt
      | (none, _) => []
    else []

/-- `WADFileBase._enumerateThingsOfMap`: locate the THINGS lump by normalized
name and decode its records; an absent lump yields the empty list. -/
def enumerateThingsOfMap (stream : BufferStream) (allLumpsOfMap : List Lump) : List Thing :=
  match allLumpsOfMap.find? (fun lump => normalizeLumpName lump.name == strBytes "THINGS") with
  | none => []
  | some thingsLump =>
    let s1 := stream.seek thingsLump.position
    let stopAt := thingsLump.position + thingsLump.size
    decodeThingsLoop ((stopAt - s1.position).toNat + 1) s1 stopAt

/-- `WADFileBase.enumerateLineDefsOfDoom1Map`. -/
def WADFile.enumerateLineDefsOfDoom1Map (w : WADFile) (episodeNr mapNr : Nat) : List LineDefs :=
  enumerateLineDefsOfMap (BufferStream.new w.data)
    (enumerateDoom1MapLumps (enumerateLumps w.data) episodeNr mapNr)

/-- `WADFileBase.enumerateLineDefsOfDoom2Map`. -/
def WADFile.enumerateLineDefsOfDoom2Map (w : WADFile) (mapNr : Nat) : List LineDefs :=
  enumerateLineDefsOfMap (BufferStream.new w.data)
    (enumerateDoom2MapLumps (enumerateLumps w.data) mapNr)

/-- `WADFileBase.enumerateThingsOfDoom1Map`. -/
def WADFile.enumerateThingsOfDoom1Map (w : WADFile) (episodeNr mapNr : Nat) : List Thing :=
  enumerateThingsOfMap (BufferStream.new w.data)
    (enumerateDoom1MapLumps (enumerateLumps w.data) episodeNr mapNr)

/-- `WADFileBase.enumerateThingsOfDoom2Map`. -/
def WADFile.enumerateThingsOfDoom2Map (w : WADFile) (mapNr : Nat) : List Thing :=
  enumerateThingsOfMap (BufferStream.new w.data)
    (enumerateDoom2MapLumps (enumerateLumps w.data) mapNr)

/-- Specification-side rendering of the lump-directory record decode (claim
C1): a fixed 16-byte record read as a 4-byte little-endian offset, a 4-byte
little-endian size and an 8-byte ASCII name with trailing NULs stripped;
enumeration stops early when any field read returns fewer bytes than
requested. -/
def lumpDirectorySpecLoop : Nat → BufferStream → List Lump
  | 0, _ => []
  | n + 1, cursor =>
    let (offsetBytes, c1) := cursor.read 4
    if offsetBytes.length ≠ 4 then [] else
    let (sizeBytes, c2) := c1.read 4
    if sizeBytes.length ≠ 4 then [] else
    let (nameBytes, c3) := c2.read 8
    if nameBytes.length ≠ 8 then [] else
    ⟨stripTrailingNuls (asciiDecode nameBytes), readInt32LEof offsetBytes,
      readInt32LEof sizeBytes⟩ :: lumpDirectorySpecLoop n c3

/-- Specification-side rendering of lump-directory enumeration (claim C1):
skip the fixed 4-byte identification field, read a little-endian 4-byte lump
count, read a little-endian 4-byte directory offset, seek to that offset and
decode `lumpCount` records. -/
def lumpDirectoryPerSpec (data : List Nat) : List Lump :=
  let cursor := (BufferStream.new data).seek 4
  let (countBytes, c1) := cursor.read 4
  if countBytes.length ≠ 4 then [] else
  let (dirOffsetBytes, c2) := c1.read 4
  if dirOffsetBytes.length ≠ 4 then [] else
  lumpDirectorySpecLoop (readInt32LEof countBytes).toNat (c2.seek (readInt32LEof dirOffsetBytes))

/-- The group terminator exactly as claim C2 words it: the raw lump name
matches `^E[0-9]`, with no case normalization. -/
def isDoom1MapTerminatorPerClaim (name : List Nat) : Bool :=
  match name with
  | c1 :: c2 :: _ => c1 == 69 && decide (48 ≤ c2) && decide (c2 ≤ 57)
  | _ => false

/-- The Doom 1 map lump group exactly as claim C2 words it: exact marker
match, then the contiguous run of following lumps up to (excluding) the first
whose raw name matches `^E[0-9]`. -/
def doom1MapLumpGroupPerClaim (allLumps : List Lump) (episodeNr mapNr : Nat) : List Lump :=
  match findIndexOf (fun lump => lump.name == doom1MapMarkerName episodeNr mapNr) allLumps with
  | none => []
  | some i =>
    (allLumps.drop (i + 1)).takeWhile (fun lump => !isDoom1MapTerminatorPerClaim lump.name)

/-- The amended Doom 1 map lump group (claim C2 corrected): as the claim, but
the terminator pattern is tested against the uppercased, trimmed lump name. -/
def doom1MapLumpGroupAmendedSpec (allLumps : List Lump) (episodeNr mapNr : Nat) : List Lump :=
  match findIndexOf (fun lump => lump.name == doom1MapMarkerName episodeNr mapNr) allLumps with
  | none => []
  | some i =>
    (allLumps.drop (i + 1)).takeWhile (fun lump => !isDoom1MapTerminator lump.name)

/-- Read `n` little-endian int16 fields in sequence, stopping at the first
short read (the cursor stays where the failing read left it). -/
def readInt16Fields : Nat → BufferStream → List Int × BufferStream
  | 0, cursor => ([], cursor)
  | n + 1, cursor =>
    let (t, c1) := cursor.read 2
    if t.length ≠ 2 then ([], c1) else
    let (rest, c2) := readInt16Fields n c1
    (readInt16LEof t :: rest, c2)

/-- Line-segment decode exactly as claim C3 words it: SIX little-endian int16
fields, then resolution of the first two as vertex-table indices; `none` on a
short read or an out-of-range index. -/
def lineSegmentDecodeSixPerClaim (cursor : BufferStream) (vertexTable : List Vertex) :
    Option LineDefs × BufferStream :=
  let (fields, c1) := readInt16Fields 6 cursor
  if fields.length ≠ 6 then (none, c1) else
  match jsIndex vertexTable (fields.getD 0 0) with
  | none => (none, c1)
  | some startVertex =>
    match jsIndex vertexTable (fields.getD 1 0) with
    | none => (none, c1)
    | some endVertex => (some ⟨startVertex, endVertex⟩, c1)

/-- Line-segment decode as claim C3 corrected: SEVEN little-endian int16
fields in the order start index, end index, flags, special type, sector tag,
right sidedef, left sidedef; only the two resolved vertices are retained. -/
def lineSegmentDecodeSevenSpec (cursor : BufferStream) (vertexTable : List Vertex) :
    Option LineDefs × BufferStream :=
  let (fields, c1) := readInt16Fields 7 cursor
  if fields.length ≠ 7 then (none, c1) else
  match jsIndex vertexTable (fields.getD 0 0) with
  | none => (none, c1)
  | some startVertex =>
    match jsIndex vertexTable (fields.getD 1 0) with
    | none => (none, c1)
    | some endVertex => (some ⟨startVertex, endVertex⟩, c1)

/-- Thing decode as claim C6 corrected: five little-endian SIGNED int16 fields
(`readInt16LEof` is the two's-complement interpretation) in the order x, y,
angle, type, flags; `none` on any short read. -/
def thingDecodeSignedSpec (cursor : BufferStream) : Option Thing × BufferStream :=
  let (fields, c1) := readInt16Fields 5 cursor
  if fields.length ≠ 5 then (none, c1) else
  (some ⟨fields.getD 0 0, fields.getD 1 0, fields.getD 2 0, fields.getD 3 0,
    fields.getD 4 0⟩, c1)

theorem dropEqConsOfGetElem {α : Type} (l : List α) (n : Nat) (a : α) (h : l[n]? = some a) :
    l.drop n = a :: l.drop (n + 1) := by
  induction l generalizing n with
  | nil => simp at h
  | cons x xs ih =>
    cases n with
    | zero => simp at h; simp [h]
    | succ m =>
      simp only [List.getElem?_cons_succ] at h
      simp [ih m h]

theorem takeWhileAppendMiddle {α : Type} (p : α → Bool) (mid : List α) (t : α)
    (post : List α) (hmid : ∀ x ∈ mid, p x = true) (ht : p t = false) :
    (mid ++ t :: post).takeWhile p = mid := by
  induction mid with
  | nil => simp [List.takeWhile_cons, ht]
  | cons x xs ih =>
    simp only [List.cons_append, List.takeWhile_cons, hmid x (by simp)]
    simp [ih (fun y hy => hmid y (by simp [hy]))]

theorem dropAppendCons {α : Type} (pre : List α) (x : α) (rest : List α) :
    (pre ++ x :: rest).drop (pre.length + 1) = rest := by
  induction pre with
  | nil => simp
  | cons a as ih => simp [ih]

theorem dropWhileOfAllFalse {α : Type} (p : α → Bool) (l : List α)
    (h : ∀ c ∈ l, p c = false) : l.dropWhile p = l := by
  cases l with
  | nil => rfl
  | cons x xs => simp [List.dropWhile_cons, h x (by simp)]

theorem jsTrimOfNoWhitespace (l : List Nat) (h : ∀ c ∈ l, isWhitespaceChar c = false) :
    jsTrim l = l := by
  unfold jsTrim
  rw [dropWhileOfAllFalse _ _ h,
    dropWhileOfAllFalse _ _ (fun c hc => h c (List.mem_reverse.mp hc)), List.reverse_reverse]

theorem mapLumpsLoopEqTakeWhile (isTerm : List Nat → Bool) (allLumps : List Lump)
    (mapLumpIndex : Nat) : ∀ (fuel offset : Nat),
    allLumps.length ≤ mapLumpIndex + offset + fuel →
    mapLumpsLoop isTerm allLumps mapLumpIndex offset fuel =
      (allLumps.drop (mapLumpIndex + offset + 1)).takeWhile (fun l => !isTerm l.name) := by
  intro fuel
  induction fuel with
  | zero =>
    intro offset hle
    rw [List.drop_eq_nil_of_le (by omega)]
    rfl
  | succ fuel ih =>
    intro offset hle
    simp only [mapLumpsLoop]
    by_cases h : mapLumpIndex + offset < allLumps.length
    · simp only [if_pos h]
      cases hg : allLumps[mapLumpIndex + offset + 1]? with
      | none =>
        have hlen : allLumps.length ≤ mapLumpIndex + offset + 1 := by
          by_contra hc
          push_neg at hc
          rw [List.getElem?_eq_getElem hc] at hg
          simp at hg
        rw [List.drop_eq_nil_of_le hlen]
        rfl
      | some lumpOfMap =>
        rw [dropEqConsOfGetElem _ _ _ hg]
        simp only [List.takeWhile_cons]
        by_cases hterm : isTerm lumpOfMap.name
        · simp [hterm]
        · simp only [hterm, Bool.not_false, if_pos, Bool.false_eq_true, not_false_eq_true]
          have harith : mapLumpIndex + (offset + 1) + 1 = mapLumpIndex + offset + 1 + 1 := by
            omega
          rw [ih (offset + 1) (by omega), harith]
          simp
    · simp only [if_neg h]
      rw [List.drop_eq_nil_of_le (by omega)]
      rfl

theorem findIndexOfEqNone (p : Lump → Bool) (l : List Lump)
    (h : ∀ x ∈ l, p x = false) : findIndexOf p l = none := by
  induction l with
  | nil => rfl
  | cons x xs ih =>
    simp only [findIndexOf, h x (by simp)]
    simp [ih (fun y hy => h y (by simp [hy]))]

theorem findIndexOfAppendCons (p : Lump → Bool) (pre : List Lump) (marker : Lump)
    (rest : List Lump) (hpre : ∀ x ∈ pre, p x = false) (hm : p marker = true) :
    findIndexOf p (pre ++ marker :: rest) = some pre.length := by
  induction pre with
  | nil => simp [findIndexOf, hm]
  | cons x xs ih =>
    simp only [List.cons_append, findIndexOf, hpre x (by simp)]
    simp [ih (fun y hy => hpre y (by simp [hy]))]

theorem digitCharsAuxMem : ∀ (fuel n c : Nat), c ∈ digitCharsAux fuel n →
    48 ≤ c ∧ c ≤ 57 := by
  intro fuel
  induction fuel with
  | zero => intro n c h; simp [digitCharsAux] at h
  | succ fuel ih =>
    intro n c h
    cases n with
    | zero => simp [digitCharsAux] at h
    | succ m =>
      simp only [digitCharsAux, List.mem_append, List.mem_singleton] at h
      rcases h with h | h
      · exact ih _ _ h
      · have hlt : (m + 1) % 10 < 10 := Nat.mod_lt _ (by norm_num)
        omega

theorem digitCharsMem (n c : Nat) (h : c ∈ digitChars n) : 48 ≤ c ∧ c ≤ 57 := by
  unfold digitChars at h
  by_cases h0 : n = 0
  · simp [h0] at h
    omega
  · rw [if_neg h0] at h
    exact digitCharsAuxMem n n c h

theorem digitCharsNeNil (n : Nat) : digitChars n ≠ [] := by
  unfold digitChars
  by_cases h0 : n = 0
  · simp [h0]
  · rw [if_neg h0]
    cases n with
    | zero => exact absurd rfl h0
    | succ m => simp [digitCharsAux]

theorem padStartTwoZerosMem (l : List Nat) (c : Nat) (h : c ∈ padStartTwoZeros l)
    (hl : ∀ d ∈ l, 48 ≤ d ∧ d ≤ 57) : 48 ≤ c ∧ c ≤ 57 := by
  unfold padStartTwoZeros at h
  rcases List.mem_append.mp h with h | h
  · have := List.eq_of_mem_replicate h
    omega
  · exact hl c h

theorem padStartTwoZerosNeNil (l : List Nat) (hl : l ≠ []) : padStartTwoZeros l ≠ [] := by
  unfold padStartTwoZeros
  intro hc
  rcases List.append_eq_nil.mp hc with ⟨_, h2⟩
  exact hl h2

theorem digitIsNotWhitespace (c : Nat) (h : 48 ≤ c ∧ c ≤ 57) :
    isWhitespaceChar c = false := by
  unfold isWhitespaceChar
  have h1 : c ≠ 9 := by omega
  have h2 : c ≠ 10 := by omega
  have h3 : c ≠ 11 := by omega
  have h4 : c ≠ 12 := by omega
  have h5 : c ≠ 13 := by omega
  have h6 : c ≠ 32 := by omega
  simp [h1, h2, h3, h4, h5, h6]

theorem jsToUpperOfDigit (c : Nat) (h : 48 ≤ c ∧ c ≤ 57) : jsToUpper c = c := by
  unfold jsToUpper
  rw [if_neg (by omega)]

theorem mapJsUpperOfDigits (l : List Nat) (h : ∀ c ∈ l, 48 ≤ c ∧ c ≤ 57) :
    l.map jsToUpper = l := by
  rw [List.map_congr_left (fun c hc => jsToUpperOfDigit c (h c hc))]
  exact List.map_id l

theorem isDoom1MapTerminatorLowerE (e2 m2 : Nat) :
    isDoom1MapTerminator (101 :: digitChars e2 ++ 109 :: digitChars m2) = true := by
  unfold isDoom1MapTerminator normalizeLumpName
  have h101 : jsToUpper 101 = 69 := by decide
  have h109 : jsToUpper 109 = 77 := by decide
  have hmap : (101 :: digitChars e2 ++ 109 :: digitChars m2).map jsToUpper
      = 69 :: digitChars e2 ++ 77 :: digitChars m2 := by
    simp only [List.map_cons, List.map_append, h101, h109]
    rw [mapJsUpperOfDigits _ (fun c hc => digitCharsMem e2 c hc),
      mapJsUpperOfDigits _ (fun c hc => digitCharsMem m2 c hc)]
  rw [hmap, jsTrimOfNoWhitespace]
  · obtain ⟨c, cs, hc⟩ := List.exists_cons_of_ne_nil (digitCharsNeNil e2)
    have hd := digitCharsMem e2 c (by rw [hc]; simp)
    rw [hc]
    simp [hd.1, hd.2]
  · intro c hc
    simp only [List.mem_cons, List.mem_append] at hc
    rcases hc with (h | h) | h | h
    · subst h; decide
    · exact digitIsNotWhitespace c (digitCharsMem e2 c h)
    · subst h; decide
    · exact digitIsNotWhitespace c (digitCharsMem m2 c h)

theorem isDoom2MapTerminatorLowerMAP (m2 : Nat) :
    isDoom2MapTerminator (109 :: 97 :: 112 :: padStartTwoZeros (digitChars m2)) = true := by
  unfold isDoom2MapTerminator normalizeLumpName
  have h109 : jsToUpper 109 = 77 := by decide
  have h97 : jsToUpper 97 = 65 := by decide
  have h112 : jsToUpper 112 = 80 := by decide
  have hpad : ∀ c ∈ padStartTwoZeros (digitChars m2), 48 ≤ c ∧ c ≤ 57 :=
    fun c hc => padStartTwoZerosMem _ c hc (fun d hd => digitCharsMem m2 d hd)
  have hmap : (109 :: 97 :: 112 :: padStartTwoZeros (digitChars m2)).map jsToUpper
      = 77 :: 65 :: 80 :: padStartTwoZeros (digitChars m2) := by
    simp only [List.map_cons, h109, h97, h112]
    rw [mapJsUpperOfDigits _ hpad]
  rw [hmap, jsTrimOfNoWhitespace]
  · simp only [List.take_succ_cons, List.take_zero]
    decide
  · intro c hc
    simp only [List.mem_cons] at hc
    rcases hc with h | h | h | h
    · subst h; decide
    · subst h; decide
    · subst h; decide
    · exact digitIsNotWhitespace c (hpad c h)

theorem lowerENeDoom1Marker (e2 m2 a b : Nat) :
    (101 :: digitChars e2 ++ 109 :: digitChars m2) ≠ doom1MapMarkerName a b := by
  unfold doom1MapMarkerName
  intro h
  injection h with h1 _
  norm_num at h1

theorem lowerMAPNeDoom2Marker (m2 b : Nat) :
    (109 :: 97 :: 112 :: padStartTwoZeros (digitChars m2)) ≠ doom2MapMarkerName b := by
  unfold doom2MapMarkerName
  intro h
  injection h with h1 _
  norm_num at h1

theorem enumReverseNameHead (e : String × Int) (rest : List (String × Int))
    (h : e.2 ∉ rest.map (fun x => x.2)) : enumReverseName (e :: rest) e.2 = some e.1 := by
  unfold enumReverseName
  rw [List.filter_cons_of_pos (by simp)]
  have hnil : rest.filter (fun x => x.2 == e.2) = [] := by
    rw [List.filter_eq_nil_iff]
    intro a ha
    simp only [beq_iff_eq]
    intro hae
    exact h (hae ▸ List.mem_map_of_mem (fun x => x.2) ha)
  rw [hnil]
  rfl

theorem enumReverseNameConsNe (e : String × Int) (rest : List (String × Int)) (v : Int)
    (h : e.2 ≠ v) : enumReverseName (e :: rest) v = enumReverseName rest v := by
  unfold enumReverseName
  rw [List.filter_cons_of_neg (by simp [h])]

theorem filterMapReverseNames : ∀ (table : List (String × Int)) (p : Int → Bool),
    (table.map (fun e => e.2)).Nodup →
    ((table.map (fun e => e.2)).filter p).map (fun v => enumReverseName table v) =
      (table.filter (fun e => p e.2)).map (fun e => some e.1) := by
  intro table
  induction table with
  | nil => intro p _; rfl
  | cons e rest ih =>
    intro p hnd
    rw [List.map_cons, List.nodup_cons] at hnd
    obtain ⟨hmem, hnd2⟩ := hnd
    have hcongr : ((rest.map (fun x => x.2)).filter p).map
        (fun v => enumReverseName (e :: rest) v) =
        ((rest.map (fun x => x.2)).filter p).map (fun v => enumReverseName rest v) :=
      List.map_congr_left (fun v hv => enumReverseNameConsNe e rest v
        (fun he => hmem (he ▸ List.mem_of_mem_filter hv)))
    by_cases hp : p e.2
    · have hR : (e :: rest).filter (fun x => p x.2) = e :: rest.filter (fun x => p x.2) :=
        List.filter_cons_of_pos hp
      rw [List.map_cons, List.filter_cons_of_pos hp, hR, List.map_cons, List.map_cons]
      rw [enumReverseNameHead e rest hmem, hcongr, ih p hnd2]
    · have hR : (e :: rest).filter (fun x => p x.2) = rest.filter (fun x => p x.2) :=
        List.filter_cons_of_neg hp
      rw [List.map_cons, List.filter_cons_of_neg hp, hR, hcongr, ih p hnd2]

theorem findReverseName : ∀ (table : List (String × Int)),
    (table.map (fun e => e.2)).Nodup → ∀ (v : Int),
    ((table.map (fun e => e.2)).find? (fun x => x == v)).bind
        (fun w => enumReverseName table w) =
      (table.find? (fun e => e.2 == v)).map (fun e => e.1) := by
  intro table
  induction table with
  | nil => intro _ v; rfl
  | cons e rest ih =>
    intro hnd v
    rw [List.map_cons, List.nodup_cons] at hnd
    obtain ⟨hmem, hnd2⟩ := hnd
    by_cases he : e.2 = v
    · subst he
      have hL : (e.2 :: rest.map (fun x => x.2)).find? (fun x => x == e.2) = some e.2 :=
        List.find?_cons_of_pos _ (by simp)
      have hR : (e :: rest).find? (fun x => x.2 == e.2) = some e :=
        List.find?_cons_of_pos _ (by simp)
      rw [List.map_cons, hL, hR]
      simp only [Option.some_bind, Option.map_some]
      exact enumReverseNameHead e rest hmem
    · have hL : (e.2 :: rest.map (fun x => x.2)).find? (fun x => x == v) =
          (rest.map (fun x => x.2)).find? (fun x => x == v) :=
        List.find?_cons_of_neg _ (by simp [he])
      have hR : (e :: rest).find? (fun x => x.2 == v) = rest.find? (fun x => x.2 == v) :=
        List.find?_cons_of_neg _ (by simp [he])
      rw [List.map_cons, hL, hR]
      cases hfind : (rest.map (fun x => x.2)).find? (fun x => x == v) with
      | none =>
        have hrest := ih hnd2 v
        rw [hfind] at hrest
        simpa using hrest
      | some w =>
        have hw : w = v := by
          have := List.find?_some hfind
          simpa using this
        subst hw
        have hrest := ih hnd2 w
        rw [hfind] at hrest
        simp only [Option.some_bind] at hrest ⊢
        rw [enumReverseNameConsNe e rest w he]
        exact hrest

theorem enumerateLumpsLoopEqSpec : ∀ (n : Nat) (bs : BufferStream),
    enumerateLumpsLoop n bs = lumpDirectorySpecLoop n bs := by
  intro n
  induction n with
  | zero => intro bs; rfl
  | succ n ih =>
    intro bs
    simp only [enumerateLumpsLoop, lumpDirectorySpecLoop, Lump.fromBufferStream]
    rcases h1 : bs.read 4 with ⟨t1, s1⟩
    by_cases ht1 : t1.length = 4
    · rcases h2 : s1.read 4 with ⟨t2, s2⟩
      by_cases ht2 : t2.length = 4
      · rcases h3 : s2.read 8 with ⟨t3, s3⟩
        by_cases ht3 : t3.length = 8
        · simp [h1, h2, h3, ht1, ht2, ht3, ih]
        · simp [h1, h2, h3, ht1, ht2, ht3]
      · simp [h1, h2, ht1, ht2]
    · simp [h1, ht1]

/-- Claim C1: lump-directory enumeration skips the fixed 4-byte identification
field, reads a little-endian 4-byte lump count and a little-endian 4-byte
directory offset, seeks to that offset and decodes one fixed 16-byte record
per declared lump (4-byte little-endian offset, 4-byte little-endian size,
8-byte ASCII name with trailing NULs stripped), in directory order; any short
field read (in particular a lump count exceeding the entries present) stops
the enumeration early with exactly the entries that fit and no error. -/
theorem c1_lump_directory_enumeration (data : List Nat) :
    enumerateLumps data = lumpDirectoryPerSpec data := by
  unfold enumerateLumps lumpDirectoryPerSpec
  rcases h1 : ((BufferStream.new data).seek 4).read 4 with ⟨t1, s1⟩
  by_cases ht1 : t1.length = 4
  · rcases h2 : s1.read 4 with ⟨t2, s2⟩
    by_cases ht2 : t2.length = 4
    · simp [h1, h2, ht1, ht2, enumerateLumpsLoopEqSpec]
    · simp [h1, h2, ht1, ht2]
  · simp [h1, ht1]

/-- Claim C2 counterexample: with directory `[E1M1, e1m2, STUFF]` the code
groups nothing after `E1M1` (the lowercase `e1m2` terminates the group once
uppercased), while the claim's terminator rule — the raw name matches
`^E[0-9]` — keeps both `e1m2` and `STUFF` in the group. -/
theorem c2_counterexample :
    (enumerateDoom1MapLumps
        [⟨strBytes "E1M1", 0, 0⟩, ⟨strBytes "e1m2", 0, 0⟩, ⟨strBytes "STUFF", 0, 0⟩] 1 1 ≠
      doom1MapLumpGroupPerClaim
        [⟨strBytes "E1M1", 0, 0⟩, ⟨strBytes "e1m2", 0, 0⟩, ⟨strBytes "STUFF", 0, 0⟩] 1 1) ∧
    enumerateDoom1MapLumps
        [⟨strBytes "E1M1", 0, 0⟩, ⟨strBytes "e1m2", 0, 0⟩, ⟨strBytes "STUFF", 0, 0⟩] 1 1 = [] ∧
    doom1MapLumpGroupPerClaim
        [⟨strBytes "E1M1", 0, 0⟩, ⟨strBytes "e1m2", 0, 0⟩, ⟨strBytes "STUFF", 0, 0⟩] 1 1 =
      [⟨strBytes "e1m2", 0, 0⟩, ⟨strBytes "STUFF", 0, 0⟩] := by decide

/-- Claim C2 amended: the map lump group is computed from the marker lump
whose stored name exactly equals `E{e}M{m}` (empty when absent), and is the
contiguous run of following lumps, in directory order, up to but not including
the first lump whose UPPERCASED, TRIMMED name matches `^E[0-9]`. -/
theorem c2_episodic_map_grouping (allLumps : List Lump) (episodeNr mapNr : Nat) :
    enumerateDoom1MapLumps allLumps episodeNr mapNr =
      doom1MapLumpGroupAmendedSpec allLumps episodeNr mapNr := by
  unfold enumerateDoom1MapLumps doom1MapLumpGroupAmendedSpec
  cases h : findIndexOf (fun lump => lump.name == doom1MapMarkerName episodeNr mapNr) allLumps with
  | none => rfl
  | some i => exact mapLumpsLoopEqTakeWhile _ _ _ _ 0 (by omega)

/-- Claim C3 counterexample: on a 12-byte record (six complete int16 fields)
with vertex table `[⟨0,0⟩]`, a six-field decode as the claim words it would
succeed, but the code reads a SEVENTH int16 field, whose short read makes the
decode return `none`. -/
theorem c3_counterexample :
    (LineDefs.fromBufferStream
        (BufferStream.new [0, 0, 0, 0, 0, 0, 0, 0, 0, 0, 0, 0]) [⟨0, 0⟩] ≠
      lineSegmentDecodeSixPerClaim
        (BufferStream.new [0, 0, 0, 0, 0, 0, 0, 0, 0, 0, 0, 0]) [⟨0, 0⟩]) ∧
    (LineDefs.fromBufferStream
        (BufferStream.new [0, 0, 0, 0, 0, 0, 0, 0, 0, 0, 0, 0]) [⟨0, 0⟩]).1 = none ∧
    (lineSegmentDecodeSixPerClaim
        (BufferStream.new [0, 0, 0, 0, 0, 0, 0, 0, 0, 0, 0, 0]) [⟨0, 0⟩]).1 =
      some ⟨⟨0, 0⟩, ⟨0, 0⟩⟩ := by decide

/-- Claim C3 amended: `LineDefs.fromBufferStream` reads SEVEN little-endian
int16 fields in the fixed order start index, end index, flags, special type,
sector tag, right sidedef, left sidedef, resolves start and end in the vertex
table, returns `none` on any short field read or out-of-range vertex index,
and retains only the two resolved vertices. -/
theorem c3_line_segment_decode (cursor : BufferStream) (vertexTable : List Vertex) :
    LineDefs.fromBufferStream cursor vertexTable =
      lineSegmentDecodeSevenSpec cursor vertexTable := by
  unfold LineDefs.fromBufferStream lineSegmentDecodeSevenSpec
  rcases h1 : cursor.read 2 with ⟨t1, s1⟩
  rcases h2 : s1.read 2 with ⟨t2, s2⟩
  rcases h3 : s2.read 2 with ⟨t3, s3⟩
  rcases h4 : s3.read 2 with ⟨t4, s4⟩
  rcases h5 : s4.read 2 with ⟨t5, s5⟩
  rcases h6 : s5.read 2 with ⟨t6, s6⟩
  rcases h7 : s6.read 2 with ⟨t7, s7⟩
  by_cases ht1 : t1.length = 2 <;>
    by_cases ht2 : t2.length = 2 <;>
      by_cases ht3 : t3.length = 2 <;>
        by_cases ht4 : t4.length = 2 <;>
          by_cases ht5 : t5.length = 2 <;>
            by_cases ht6 : t6.length = 2 <;>
              by_cases ht7 : t7.length = 2 <;>
                simp [readInt16Fields, h1, h2, h3, h4, h5, h6, h7,
                  ht1, ht2, ht3, ht4, ht5, ht6, ht7]

/-- Claim C4: archive identification reads the first 4 bytes as ASCII; "IWAD"
yields the internal-complete archive, "PWAD" the patch archive, and any other
prefix fails with the InvalidFormat error and no partial result (the one
error-returning operation of the decode path; every other embedded operation
is total and degrades to empty or partial lists). -/
theorem c4_archive_identification (data : List Nat) (format : WADFormat) :
    (asciiDecode (listSubarray data 0 4) = strBytes "IWAD" →
      WADFileBase.fromBuffer data format = .ok ⟨format, .IWAD, data⟩) ∧
    (asciiDecode (listSubarray data 0 4) = strBytes "PWAD" →
      WADFileBase.fromBuffer data format = .ok ⟨format, .PWAD, data⟩) ∧
    (asciiDecode (listSubarray data 0 4) ≠ strBytes "IWAD" →
      asciiDecode (listSubarray data 0 4) ≠ strBytes "PWAD" →
      WADFileBase.fromBuffer data format = .error .InvalidFormat) := by
  refine ⟨fun h => ?_, fun h => ?_, fun h1 h2 => ?_⟩
  · simp only [WADFileBase.fromBuffer]
    rw [if_pos h]
  · simp only [WADFileBase.fromBuffer]
    rw [h, if_neg (by decide), if_pos rfl]
  · simp only [WADFileBase.fromBuffer]
    rw [if_neg h1, if_neg h2]

/-- Witness for claim C4 at concrete buffers. -/
theorem c4_witness :
    WADFileBase.fromBuffer (strBytes "IWADDATA") WADFormat.Default =
      .ok ⟨WADFormat.Default, .IWAD, strBytes "IWADDATA"⟩ ∧
    WADFileBase.fromBuffer (strBytes "XXXX") WADFormat.Default =
      .error .InvalidFormat :=
  ⟨(c4_archive_identification (strBytes "IWADDATA") WADFormat.Default).1 (by decide),
   (c4_archive_identification (strBytes "XXXX") WADFormat.Default).2.2
     (by decide) (by decide)⟩

/-- Claim C5 counterexample: `seek(-1)` on a 4-byte buffer stores position -1,
outside the claimed range `[0, 4]` — `Math.min` clamps only from above. -/
theorem c5_counterexample :
    (BufferStream.seek (BufferStream.new [0, 0, 0, 0]) (-1)).position = -1 ∧
    (BufferStream.seek (BufferStream.new [0, 0, 0, 0]) (-1)).position < 0 := by decide

/-- Claim C5 amended: `seek(pos)` stores `min pos L` without raising — clamped
from above only, a negative target is stored as is; the position never exceeds
the buffer length after a seek or a read, a seek to a nonnegative target keeps
it nonnegative, and a read from a nonnegative position keeps the position
nonnegative (so positions that start inside `[0, L]` stay inside `[0, L]`). -/
theorem c5_position_clamping (buf : List Nat) (pos current : Int) (count : Nat) :
    (BufferStream.seek ⟨buf, current⟩ pos).position = min pos (buf.length : Int) ∧
    (BufferStream.seek ⟨buf, current⟩ pos).position ≤ (buf.length : Int) ∧
    ((BufferStream.read ⟨buf, current⟩ count).2.position ≤ (buf.length : Int)) ∧
    (0 ≤ pos → 0 ≤ (BufferStream.seek ⟨buf, current⟩ pos).position) ∧
    (0 ≤ current → 0 ≤ (BufferStream.read ⟨buf, current⟩ count).2.position) := by
  refine ⟨rfl, min_le_right _ _, ?_, fun h => le_min h (Int.natCast_nonneg _), fun h => ?_⟩
  · simp only [BufferStream.read, BufferStream.seek]
    exact min_le_right _ _
  · simp only [BufferStream.read, BufferStream.seek]
    exact le_min (add_nonneg h (Int.natCast_nonneg _)) (Int.natCast_nonneg _)

/-- Witness for claim C5 at a concrete cursor. -/
theorem c5_witness :
    (BufferStream.seek ⟨[0, 0, 0, 0], 0⟩ 2).position =
      min 2 (([0, 0, 0, 0] : List Nat).length : Int) ∧
    (0 : Int) ≤ (BufferStream.seek ⟨[0, 0, 0, 0], 0⟩ 2).position ∧
    (0 : Int) ≤ (BufferStream.read ⟨[0, 0, 0, 0], 0⟩ 2).2.position :=
  ⟨(c5_position_clamping [0, 0, 0, 0] 2 0 2).1,
   (c5_position_clamping [0, 0, 0, 0] 2 0 2).2.2.2.1 (by decide),
   (c5_position_clamping [0, 0, 0, 0] 2 0 2).2.2.2.2 (by decide)⟩

/-- Claim C6 counterexample: a THINGS record whose type field has wire bytes
0x00 0x80 decodes with `type = -32768` (signed int16), not the non-negative
uint16 value 32768 the claim requires. -/
theorem c6_counterexample :
    ((Thing.fromBufferStream
        (BufferStream.new [0, 0, 0, 0, 0, 0, 0, 128, 0, 0])).1.map Thing.type) =
      some (-32768) ∧ ¬((-32768 : Int) = 32768) := by decide

/-- Claim C6 amended: `Thing.fromBufferStream` decodes all five fields — type
and flags included — as little-endian SIGNED 16-bit values (`readInt16LE`,
two's complement); a wire field with the high bit set decodes to a negative
value, never to the non-negative uint16 interpretation. -/
theorem c6_thing_fields_signed :
    (∀ stream : BufferStream,
      Thing.fromBufferStream stream = thingDecodeSignedSpec stream) ∧
    (∀ lo hi : Nat, 128 ≤ hi % 256 → readInt16LEof [lo, hi] < 0) := by
  constructor
  · intro stream
    unfold Thing.fromBufferStream thingDecodeSignedSpec
    rcases h1 : stream.read 2 with ⟨t1, s1⟩
    rcases h2 : s1.read 2 with ⟨t2, s2⟩
    rcases h3 : s2.read 2 with ⟨t3, s3⟩
    rcases h4 : s3.read 2 with ⟨t4, s4⟩
    rcases h5 : s4.read 2 with ⟨t5, s5⟩
    by_cases ht1 : t1.length = 2 <;>
      by_cases ht2 : t2.length = 2 <;>
        by_cases ht3 : t3.length = 2 <;>
          by_cases ht4 : t4.length = 2 <;>
            by_cases ht5 : t5.length = 2 <;>
              simp [readInt16Fields, h1, h2, h3, h4, h5, ht1, ht2, ht3, ht4, ht5]
  · intro lo hi h
    unfold readInt16LEof
    simp only [List.getD_cons_zero, List.getD_cons_succ]
    have hlo : lo % 256 < 256 := Nat.mod_lt _ (by norm_num)
    have hhi : hi % 256 < 256 := Nat.mod_lt _ (by norm_num)
    rw [if_neg (by omega)]
    omega

/-- Witness for claim C6: the decode of a concrete record whose type field has
wire bytes 0x00 0x80, through the amended theorem. -/
theorem c6_witness :
    Thing.fromBufferStream (BufferStream.new [1, 0, 2, 0, 3, 0, 0, 128, 9, 0]) =
      thingDecodeSignedSpec (BufferStream.new [1, 0, 2, 0, 3, 0, 0, 128, 9, 0]) ∧
    readInt16LEof [0, 128] < 0 :=
  ⟨c6_thing_fields_signed.1 (BufferStream.new [1, 0, 2, 0, 3, 0, 0, 128, 9, 0]),
   c6_thing_fields_signed.2 0 128 (by decide)⟩

/-- Claim C7: decoding the line segments of a map lump group yields the empty
list and raises no error when the group has no lump whose uppercased, trimmed
name is VERTEXES or none named LINEDEFS — even when the other required lump is
present; likewise decoding things yields the empty list when the group lacks a
THINGS lump. -/
theorem c7_missing_required_lump (stream : BufferStream) (allLumpsOfMap : List Lump) :
    (((∀ l ∈ allLumpsOfMap, normalizeLumpName l.name ≠ strBytes "VERTEXES") ∨
      (∀ l ∈ allLumpsOfMap, normalizeLumpName l.name ≠ strBytes "LINEDEFS")) →
      enumerateLineDefsOfMap stream allLumpsOfMap = []) ∧
    ((∀ l ∈ allLumpsOfMap, normalizeLumpName l.name ≠ strBytes "THINGS") →
      enumerateThingsOfMap stream allLumpsOfMap = []) := by
  constructor
  · intro h
    unfold enumerateLineDefsOfMap
    rcases h with h | h
    · rw [List.find?_eq_none.mpr (fun x hx => by simp [h x hx])]
    · have hld : allLumpsOfMap.find?
          (fun lump => normalizeLumpName lump.name == strBytes "LINEDEFS") = none :=
        List.find?_eq_none.mpr (fun x hx => by simp [h x hx])
      cases hv : allLumpsOfMap.find?
          (fun lump => normalizeLumpName lump.name == strBytes "VERTEXES") with
      | none => rfl
      | some vl => simp [hld]
  · intro h
    unfold enumerateThingsOfMap
    rw [List.find?_eq_none.mpr (fun x hx => by simp [h x hx])]

/-- Witness for claim C7: a group holding only a VERTEXES lump yields no line
segments (LINEDEFS absent) and no things (THINGS absent). -/
theorem c7_witness :
    enumerateLineDefsOfMap (BufferStream.new []) [⟨strBytes "VERTEXES", 0, 0⟩] = [] ∧
    enumerateThingsOfMap (BufferStream.new []) [⟨strBytes "VERTEXES", 0, 0⟩] = [] :=
  ⟨(c7_missing_required_lump (BufferStream.new []) [⟨strBytes "VERTEXES", 0, 0⟩]).1
      (Or.inr (by decide)),
   (c7_missing_required_lump (BufferStream.new []) [⟨strBytes "VERTEXES", 0, 0⟩]).2
      (by decide)⟩

/-- Claim C8: `doomFlagNames` is exactly the list of symbolic names of the
flag-table entries whose bit value ANDs non-zero with the thing's flags, in
table order, with no duplicates and no extraneous entries; in particular
flags = 0x0009 yields exactly Skill_1_and_2 and Deaf. -/
theorem c8_doom_flag_names :
    (∀ t : Thing,
      t.doomFlagNames =
        (DOOMThingFlagsTable.filter (fun e => jsAnd t.flags e.2 != 0)).map
          (fun e => some e.1) ∧
      t.doomFlagNames.Nodup) ∧
    Thing.doomFlagNames ⟨0, 0, 0, 0, 9⟩ = [some "Skill_1_and_2", some "Deaf"] := by
  constructor
  · intro t
    have heq : t.doomFlagNames =
        (DOOMThingFlagsTable.filter (fun e => jsAnd t.flags e.2 != 0)).map
          (fun e => some e.1) := by
      unfold Thing.doomFlagNames Thing.doomFlags
      exact filterMapReverseNames DOOMThingFlagsTable
        (fun value => jsAnd t.flags value != 0) (by decide)
    refine ⟨heq, ?_⟩
    rw [heq]
    have hsub : List.Sublist
        ((DOOMThingFlagsTable.filter (fun e => jsAnd t.flags e.2 != 0)).map
          (fun e => some e.1))
        (DOOMThingFlagsTable.map (fun e => some e.1)) :=
      (List.filter_sublist _).map _
    exact List.Nodup.sublist hsub (by decide)
  · decide

/-- Claim C9 counterexample: typeCode 0 (`UNKNOWN`) is present in the type
table with canonical name "UNKNOWN" and is found by `doomType`, yet
`doomTypeName` returns none for it — the `if (!doomType)` guard treats the
enum value 0 as falsy. -/
theorem c9_counterexample :
    Thing.doomType ⟨0, 0, 0, 0, 0⟩ = some 0 ∧
    enumReverseName DOOMThingTypeTable 0 = some "UNKNOWN" ∧
    Thing.doomTypeName ⟨0, 0, 0, 0, 0⟩ = none := by decide

/-- Claim C9 amended: `doomTypeName` is the exact-match lookup of the thing's
typeCode in the static type table — none exactly when the typeCode is
unrecognized — except that typeCode 0 (`UNKNOWN`), though present in the
table, also yields none because of the falsy `!doomType` guard. -/
theorem c9_doom_type_name (t : Thing) :
    t.doomTypeName =
      if t.type = 0 then none
      else (DOOMThingTypeTable.find? (fun e => e.2 == t.type)).map (fun e => e.1) := by
  unfold Thing.doomTypeName Thing.doomType
  have hlemma := findReverseName DOOMThingTypeTable (by decide) t.type
  cases hfind : (DOOMThingTypeTable.map (fun e => e.2)).find? (fun value => value == t.type) with
  | none =>
    rw [hfind] at hlemma
    simp only [Option.none_bind] at hlemma
    rw [← hlemma]
    simp
  | some v =>
    have hv : v = t.type := by
      have := List.find?_some hfind
      simpa using this
    subst hv
    rw [hfind] at hlemma
    simp only [Option.some_bind] at hlemma
    by_cases h0 : t.type = 0
    · simp [h0]
    · simp [h0, hlemma]

/-- Claim C10: in both map lump groupers the marker is matched by
case-sensitive exact equality on the stored (NUL-stripped, case-preserved)
lump name, while the terminator test uppercases and trims the candidate name
first; consequently a lump whose name is a lowercase variant of a map marker
(e.g. e1m2 or map02) is never found as a group's marker — the group of the map
it would mark is empty when no exact-case marker lump exists — yet it still
terminates the lump group of the preceding map. -/
theorem c10_marker_case_asymmetry :
    (∀ (episodeNr mapNr e2 m2 : Nat) (pre mid post : List Lump) (marker t : Lump),
      marker.name = doom1MapMarkerName episodeNr mapNr →
      (∀ l ∈ pre, l.name ≠ doom1MapMarkerName episodeNr mapNr) →
      (∀ l ∈ mid, isDoom1MapTerminator l.name = false) →
      t.name = 101 :: digitChars e2 ++ 109 :: digitChars m2 →
      (∀ l ∈ pre ++ marker :: (mid ++ post), l.name ≠ doom1MapMarkerName e2 m2) →
      enumerateDoom1MapLumps (pre ++ marker :: (mid ++ t :: post)) episodeNr mapNr = mid ∧
      enumerateDoom1MapLumps (pre ++ marker :: (mid ++ t :: post)) e2 m2 = []) ∧
    (∀ (mapNr m2 : Nat) (pre mid post : List Lump) (marker t : Lump),
      marker.name = doom2MapMarkerName mapNr →
      (∀ l ∈ pre, l.name ≠ doom2MapMarkerName mapNr) →
      (∀ l ∈ mid, isDoom2MapTerminator l.name = false) →
      t.name = 109 :: 97 :: 112 :: padStartTwoZeros (digitChars m2) →
      (∀ l ∈ pre ++ marker :: (mid ++ post), l.name ≠ doom2MapMarkerName m2) →
      enumerateDoom2MapLumps (pre ++ marker :: (mid ++ t :: post)) mapNr = mid ∧
      enumerateDoom2MapLumps (pre ++ marker :: (mid ++ t :: post)) m2 = []) := by
  constructor
  · intro episodeNr mapNr e2 m2 pre mid post marker t hmark hpre hmid ht hnone
    constructor
    · unfold enumerateDoom1MapLumps
      have hfound : findIndexOf
          (fun lump => lump.name == doom1MapMarkerName episodeNr mapNr)
          (pre ++ marker :: (mid ++ t :: post)) = some pre.length :=
        findIndexOfAppendCons _ pre marker _ (fun x hx => by simp [hpre x hx])
          (by simp [hmark])
      simp only [hfound]
      rw [mapLumpsLoopEqTakeWhile _ _ _ _ 0 (by omega)]
      simp only [Nat.add_zero]
      rw [dropAppendCons]
      exact takeWhileAppendMiddle _ mid t post (fun x hx => by simp [hmid x hx])
        (by rw [ht, isDoom1MapTerminatorLowerE e2 m2]; rfl)
    · unfold enumerateDoom1MapLumps
      have hnone2 : findIndexOf (fun lump => lump.name == doom1MapMarkerName e2 m2)
          (pre ++ marker :: (mid ++ t :: post)) = none := by
        apply findIndexOfEqNone
        intro x hx
        by_cases hxt : x = t
        · subst hxt
          simp only [beq_eq_false_iff_ne, ne_eq, ht]
          exact lowerENeDoom1Marker e2 m2 e2 m2
        · have hx2 : x ∈ pre ++ marker :: (mid ++ post) := by
            simp only [List.mem_append, List.mem_cons] at hx ⊢
            tauto
          simp [hnone x hx2]
      simp only [hnone2]
  · intro mapNr m2 pre mid post marker t hmark hpre hmid ht hnone
    constructor
    · unfold enumerateDoom2MapLumps
      have hfound : findIndexOf
          (fun lump => lump.name == doom2MapMarkerName mapNr)
          (pre ++ marker :: (mid ++ t :: post)) = some pre.length :=
        findIndexOfAppendCons _ pre marker _ (fun x hx => by simp [hpre x hx])
          (by simp [hmark])
      simp only [hfound]
      rw [mapLumpsLoopEqTakeWhile _ _ _ _ 0 (by omega)]
      simp only [Nat.add_zero]
      rw [dropAppendCons]
      exact takeWhileAppendMiddle _ mid t post (fun x hx => by simp [hmid x hx])
        (by rw [ht, isDoom2MapTerminatorLowerMAP m2]; rfl)
    · unfold enumerateDoom2MapLumps
      have hnone2 : findIndexOf (fun lump => lump.name == doom2MapMarkerName m2)
          (pre ++ marker :: (mid ++ t :: post)) = none := by
        apply findIndexOfEqNone
        intro x hx
        by_cases hxt : x = t
        · subst hxt
          simp only [beq_eq_false_iff_ne, ne_eq, ht]
          exact lowerMAPNeDoom2Marker m2 m2
        · have hx2 : x ∈ pre ++ marker :: (mid ++ post) := by
            simp only [List.mem_append, List.mem_cons] at hx ⊢
            tauto
          simp [hnone x hx2]
      simp only [hnone2]

/-- Witness for claim C10 at concrete directories: grouping
[E1M1, THINGS, e1m2, X] for episode 1 map 1 stops before the lowercase e1m2,
grouping the same directory for episode 1 map 2 is empty; likewise for
[MAP01, THINGS, map02] with maps 1 and 2. -/
theorem c10_witness :
    enumerateDoom1MapLumps
        [⟨strBytes "E1M1", 0, 0⟩, ⟨strBytes "THINGS", 0, 0⟩,
          ⟨strBytes "e1m2", 0, 0⟩, ⟨strBytes "X", 0, 0⟩] 1 1 =
      [⟨strBytes "THINGS", 0, 0⟩] ∧
    enumerateDoom1MapLumps
        [⟨strBytes "E1M1", 0, 0⟩, ⟨strBytes "THINGS", 0, 0⟩,
          ⟨strBytes "e1m2", 0, 0⟩, ⟨strBytes "X", 0, 0⟩] 1 2 = [] ∧
    enumerateDoom2MapLumps
        [⟨strBytes "MAP01", 0, 0⟩, ⟨strBytes "THINGS", 0, 0⟩,
          ⟨strBytes "map02", 0, 0⟩] 1 = [⟨strBytes "THINGS", 0, 0⟩] ∧
    enumerateDoom2MapLumps
        [⟨strBytes "MAP01", 0, 0⟩, ⟨strBytes "THINGS", 0, 0⟩,
          ⟨strBytes "map02", 0, 0⟩] 2 = [] := by
  have h1 := c10_marker_case_asymmetry.1 1 1 1 2 []
    [⟨strBytes "THINGS", 0, 0⟩] [⟨strBytes "X", 0, 0⟩]
    ⟨strBytes "E1M1", 0, 0⟩ ⟨strBytes "e1m2", 0, 0⟩
    (by decide) (by decide) (by decide) (by decide) (by decide)
  have h2 := c10_marker_case_asymmetry.2 1 2 []
    [⟨strBytes "THINGS", 0, 0⟩] []
    ⟨strBytes "MAP01", 0, 0⟩ ⟨strBytes "map02", 0, 0⟩
    (by decide) (by decide) (by decide) (by decide) (by decide)
  exact ⟨h1.1, h1.2, h2.1, h2.2⟩
